import Mathlib

/-!
Verification of the `mm` heterogeneous memory manager of this repository
(`namespace mfem`, file given as src/unnamed/part_000).

Shallow embedding:
* Host and device addresses are modelled as `Nat`; the C++ `NULL` device
  pointer is the value `0`.  The target is LP64, so `sizeof(size_t) = 8`;
  pointer arithmetic on `size_t*` therefore moves in steps of `8` bytes,
  which the embedding makes explicit (`szT`).
* The registry `mng : mm_t` (a map from host address to `mm2dev_t`) is
  modelled as an association list scanned front to back; `operator[]` on a
  present key is a lookup, on an absent key it default-constructs.
* A fatal condition (`MFEM_SIGSEGV_FOR_STACK`, i.e. `__builtin_trap()`, a
  failing `assert`, a failing `MFEM_ASSERT`, or `mfem_error`) aborts the
  process; an operation that aborts is modelled as returning `none`.
* Calls into the raw copy backend (`okMemAlloc`, `okMemcpyHtoD`,
  `okMemcpyHtoDAsync`, `okMemcpyDtoH`) are logged in an `Effects` record –
  one list entry per backend call, carrying the byte count of the call.
* The device allocator is modelled as a counter `nextDev` in the state;
  `okMemAlloc` returns the fresh non-null address `nextDev + 1`.
* `config::Get().Cuda()` and `config::nvcc()` are passed as the booleans
  `cuda` and `nvcc`; the `XS` environment toggle read in `mm::Setup` is the
  state field `xs_shifted` (when it is set, `xs_shift = 1 <<< 48`).

Modelled from the spec: the default arguments of `mm::Known` and
`mm::Insert` are declared in `kernels/mm.hpp`, which is not part of the
given sources.  Following the spec (§4.1, §7: `Erase`/`Push`/`Pull` perform
a *non-auto-registering* known check, and the range resolver auto-registers
a *sub-range* record), `insert_if_in_range` defaults to `false` and the
auto-registration performed inside `Known` passes `ranged = true`.
-/

namespace MfemMM

/-- Byte size of `size_t` on the target (LP64) platform: pointer arithmetic
on `size_t*` in the source scales by this factor. -/
def szT : Nat := 8

/-- The record type `mm2dev_t`: one entry of the registry.  `d_adrs = 0`
models the `NULL` device pointer. -/
structure Record where
  h_adrs : Nat
  bytes : Nat
  d_adrs : Nat
  host : Bool
  ranged : Bool
  deriving DecidableEq

/-- The value-initialized `mm2dev_t` produced by `operator[]` on an absent
key. -/
def defaultRec : Record := ⟨0, 0, 0, false, false⟩

/-- The registry `mm_t`: host address keys mapped to records, scanned front
to back. -/
abbrev Registry := List (Nat × Record)

/-- The mutable state of the manager: the map `mng`, the `XS` diagnostic
toggle (`xs_shifted`, with `xs_shift = 2^48` exactly when it is set), and
the device-allocator model `nextDev`. -/
structure MMState where
  mng : Registry
  xs_shifted : Bool
  nextDev : Nat
  deriving DecidableEq

/-- Log of raw-copy-backend invocations: byte counts of host-to-device
copies, device-to-host copies, and device allocations, one entry per
backend call. -/
structure Effects where
  h2d : List Nat
  d2h : List Nat
  allocs : List Nat
  deriving DecidableEq

/-- No backend call. -/
def noEffects : Effects := ⟨[], [], []⟩

/-- The shift amount in `size_t` units: `xs_shift` is `1 <<< 48` when the
`XS` toggle was seen by `mm::Setup`, otherwise `0`. -/
def xsShiftUnits (st : MMState) : Nat := if st.xs_shifted then 2 ^ 48 else 0

/-- `xsShift` (part_000 lines 26-30): identity when the toggle is off,
otherwise `((size_t*) adrs) - xs_shift`, i.e. `adrs - 8 * 2^48` bytes. -/
def xsShift (st : MMState) (adrs : Nat) : Nat :=
  if st.xs_shifted then adrs - szT * xsShiftUnits st else adrs

/-- The key computation of `mm::Insert` (line 92):
`((size_t *) adrs) + xs_shift`, i.e. `adrs + 8 * 2^48` bytes when the
toggle is on, `adrs` otherwise. -/
def insertKey (st : MMState) (adrs : Nat) : Nat :=
  adrs + szT * xsShiftUnits st

/-- Exact-match lookup in the registry (`mng->find`). -/
def findRec : Registry → Nat → Option Record
  | [], _ => none
  | (k, v) :: rest, a => if k = a then some v else findRec rest a

/-- Store a record under a key: overwrite the existing entry, or append a
new one (the mutation performed through the `operator[]` reference). -/
def setRec : Registry → Nat → Record → Registry
  | [], a, r => [(a, r)]
  | (k, v) :: rest, a, r =>
    if k = a then (a, r) :: rest else (k, v) :: setRec rest a r

/-- `mng->erase(adrs)`. -/
def eraseKey (m : Registry) (a : Nat) : Registry :=
  m.filter (fun e => e.1 != a)

/-- The scan loop of `mm::Range` (lines 50-56): skip entries with
`h_adrs > adrs`; return the first `h_adrs` with
`adrs <= (size_t*) h_adrs + bytes`, i.e. `adrs ≤ h_adrs + 8 * bytes`
(the end pointer is computed in `size_t` units and compared inclusively). -/
def rangeScan : Registry → Nat → Option Nat
  | [], _ => none
  | (_, r) :: rest, adrs =>
    if adrs < r.h_adrs then rangeScan rest adrs
    else if adrs ≤ r.h_adrs + szT * r.bytes then some r.h_adrs
    else rangeScan rest adrs

/-- `mm::Range` (lines 45-58).  `assert(not known)` aborts when the probe
address is itself a registry key (`none`); otherwise the result of the scan
is returned (`some`). -/
def mmRange (m : Registry) (adrs : Nat) : Option (Option Nat) :=
  match findRec m adrs with
  | some _ => none
  | none => some (rangeScan m adrs)

/-- `mm::Insert` (lines 85-116).  The key is `adrs` shifted by `xs_shift`
`size_t` units.  If the key is already present, both branches are fatal
(`MFEM_SIGSEGV_FOR_STACK` for a non-ranged record; `MFEM_ASSERT(false,..)`
for a ranged one).  Otherwise a record is created through `operator[]` and
every field is assigned: `host = true`, `bytes = size * size_of_T`,
`h_adrs` = the key, `d_adrs = NULL`, `ranged` as passed; the (shifted)
`h_adrs` is returned. -/
def Insert (st : MMState) (adrs size size_of_T : Nat) (ranged : Bool) :
    Option (Nat × MMState) :=
  let h_adrs := insertKey st adrs
  match findRec st.mng h_adrs with
  | some _ => none
  | none =>
    let r : Record :=
      { h_adrs := h_adrs, bytes := size * size_of_T, d_adrs := 0,
        host := true, ranged := ranged }
    some (h_adrs, { st with mng := setRec st.mng h_adrs r })

/-- `mm::Known` (lines 61-78).  Exact hit: `true`, no state change.  Miss
with `insert_if_in_range = false`: `false`, no state change.  Otherwise the
range scan runs (its `assert(not known)` cannot fire here); on a miss the
result is `false`.  On a hit at `base`, `operator[](base)` is read
(an absent `base` would give the default record, whose `bytes = 0` fails
the `assert(0 < bytes)`), the asserts `0 < bytes` and `base < adrs` abort
on failure, the offset is the `size_t*` pointer difference
`(adrs - base) / 8`, and `Insert(adrs, bytes - offset, 1, ranged = true)`
auto-registers the sub-range. -/
def Known (st : MMState) (adrs : Nat) (insert_if_in_range : Bool) :
    Option (Bool × MMState) :=
  match findRec st.mng adrs with
  | some _ => some (true, st)
  | none =>
    if insert_if_in_range = false then some (false, st)
    else
      match rangeScan st.mng adrs with
      | none => some (false, st)
      | some base =>
        match findRec st.mng base with
        | none => none
        | some r =>
          if r.bytes = 0 then none
          else if adrs ≤ base then none
          else
            match Insert st adrs (r.bytes - (adrs - base) / szT) 1 true with
            | none => none
            | some q => some (true, q.2)

/-- `mm::Erase` (lines 121-128): fatal (`MFEM_SIGSEGV_FOR_STACK`) when the
address is not a key; otherwise the entry is removed and `xsShift(adrs)` is
returned. -/
def Erase (st : MMState) (adrs : Nat) : Option (Nat × MMState) :=
  match findRec st.mng adrs with
  | none => none
  | some _ => some (xsShift st adrs, { st with mng := eraseKey st.mng adrs })

/-- `operator[]` semantics used by `mm::Adrs` after the known check: read
the record if present, otherwise insert and read a default-constructed
one. -/
def getOrInsert (m : Registry) (a : Nat) : Record × Registry :=
  match findRec m a with
  | some r => (r, m)
  | none => (defaultRec, m ++ [(a, defaultRec)])

/-- `mm::Adrs` (lines 133-158), the resolve operation.  The known check
runs with `insert_if_in_range = true` and aborts on failure.  If the record
is host-resident and CUDA mode is off, `xsShift(h_adrs)` is returned with
no backend call.  Otherwise, if `d_adrs` is `NULL`: abort when built
without CUDA support (`nvcc = false`); else allocate `bytes` device bytes
(skipped when `bytes = 0`, leaving `d_adrs = NULL`), perform one
host-to-device copy of `bytes` bytes, set `host = false` (the record is
now GPU born), and return `d_adrs`.  If `d_adrs` is already non-null it is
returned with no backend call. -/
def Adrs (cuda nvcc : Bool) (st : MMState) (adrs : Nat) :
    Option (Nat × MMState × Effects) :=
  match Known st adrs true with
  | none => none
  | some (false, _) => none
  | some (true, st1) =>
    let gr := getOrInsert st1.mng adrs
    let r := gr.1
    let st2 : MMState := { st1 with mng := gr.2 }
    if r.host && !cuda then
      some (xsShift st2 r.h_adrs, st2, noEffects)
    else if r.d_adrs = 0 then
      if nvcc = false then none
      else
        let d := if 0 < r.bytes then st2.nextDev + 1 else 0
        let nd := if 0 < r.bytes then st2.nextDev + 1 else st2.nextDev
        let al : List Nat := if 0 < r.bytes then [r.bytes] else []
        let r2 : Record := { r with d_adrs := d, host := false }
        some (d, { st2 with mng := setRec st2.mng adrs r2, nextDev := nd },
              ⟨[r.bytes], [], al⟩)
    else
      some (r.d_adrs, st2, noEffects)

/-- `mm::Push` (lines 161-167): fatal when unknown; no backend call when
the record is host-resident; otherwise one `okMemcpyHtoD` of `bytes`
bytes.  The registry is never modified. -/
def Push (st : MMState) (adrs : Nat) : Option (MMState × Effects) :=
  match findRec st.mng adrs with
  | none => none
  | some r =>
    if r.host then some (st, noEffects) else some (st, ⟨[r.bytes], [], []⟩)

/-- `mm::Pull` (lines 170-176): fatal when unknown; no backend call when
the record is host-resident; otherwise one `okMemcpyDtoH` of `bytes`
bytes.  The registry is never modified. -/
def Pull (st : MMState) (adrs : Nat) : Option (MMState × Effects) :=
  match findRec st.mng adrs with
  | none => none
  | some r =>
    if r.host then some (st, noEffects) else some (st, ⟨[], [r.bytes], []⟩)

/-! ## Helper lemmas -/

/-- Reading back the key just stored. -/
theorem findRec_setRec_self (m : Registry) (a : Nat) (r : Record) :
    findRec (setRec m a r) a = some r := by
  induction m with
  | nil => simp [setRec, findRec]
  | cons e rest ih =>
    obtain ⟨k, v⟩ := e
    by_cases h : k = a
    · subst h; simp [setRec, findRec]
    · simp [setRec, findRec, h, ih]

/-- Storing under one key leaves other keys unchanged. -/
theorem findRec_setRec_other (m : Registry) (a b : Nat) (r : Record)
    (hab : a ≠ b) : findRec (setRec m a r) b = findRec m b := by
  induction m with
  | nil => simp [setRec, findRec, hab]
  | cons e rest ih =>
    obtain ⟨k, v⟩ := e
    by_cases h : k = a
    · subst h; simp [setRec, findRec, hab]
    · simp only [setRec, if_neg h, findRec]
      by_cases hkb : k = b
      · simp [hkb]
      · simp [hkb, ih]

/-- A `Known` query with `insert_if_in_range = false` returns exactly
whether the address has an entry, and leaves the state untouched. -/
theorem known_false_spec (st : MMState) (a : Nat) :
    Known st a false = some ((findRec st.mng a).isSome, st) := by
  unfold Known
  cases h : findRec st.mng a <;> simp [h]

/-! ## Claim theorems -/

/-- C10: for every address, `Known(address, insertIfInRange=false)` is a
pure query: it reports whether the address has an exact registry entry and
the registry (indeed the whole manager state) after the call is identical
to the state before the call, even when the address falls inside the
extent of a registered block. -/
theorem C10_known_query_pure (st : MMState) (a : Nat) :
    Known st a false = some ((findRec st.mng a).isSome, st) :=
  known_false_spec st a

/-- C6: for every fresh (unregistered) address `p` and every count `n` and
element size `s` (shifter disabled), `Insert(p, n, s)` succeeds, returns
`p`, and immediately afterwards `Known(p)` is true and the registered
record's byte size equals `n * s`. -/
theorem C6_insert_fresh (st : MMState) (p n s : Nat) (rgd : Bool)
    (hxs : st.xs_shifted = false) (hfresh : findRec st.mng p = none) :
    ∃ st1, Insert st p n s rgd = some (p, st1) ∧
      (findRec st1.mng p).map Record.bytes = some (n * s) ∧
      Known st1 p false = some (true, st1) := by
  have hkey : insertKey st p = p := by
    simp [insertKey, xsShiftUnits, hxs]
  refine ⟨{ st with mng := setRec st.mng p ⟨p, n * s, 0, true, rgd⟩ }, ?_, ?_, ?_⟩
  · unfold Insert
    simp only [hkey, hfresh]
  · simp [findRec_setRec_self]
  · rw [known_false_spec]
    simp [findRec_setRec_self]

/-- C7: `Erase(p)` on an address with no registry entry is fatal
(`__builtin_trap`), and `Insert(p, ..)` on an address that is already
registered and not marked ranged is fatal; neither is a recoverable error
return (in the embedding, the operation has no normal result at all:
it is `none`, the model of a process abort). -/
theorem C7_fatal_erase_and_duplicate_insert (st : MMState) (p n s : Nat)
    (rgd : Bool) (r : Record) :
    (findRec st.mng p = none → Erase st p = none) ∧
    (st.xs_shifted = false → findRec st.mng p = some r → r.ranged = false →
      Insert st p n s rgd = none) := by
  constructor
  · intro h
    unfold Erase
    simp [h]
  · intro hxs h _
    have hkey : insertKey st p = p := by
      simp [insertKey, xsShiftUnits, hxs]
    unfold Insert
    simp only [hkey, h]

/-- C8: for every registered address `p`, `Push(p)` performs zero backend
copy calls when the record is host-resident, and performs exactly one
host-to-device copy of exactly the record's byte size when the record is
device-resident; `Push` on an unregistered address is fatal. -/
theorem C8_push_copy_discipline (st : MMState) (p : Nat) (r : Record) :
    (findRec st.mng p = some r → r.host = true →
      Push st p = some (st, noEffects)) ∧
    (findRec st.mng p = some r → r.host = false →
      Push st p = some (st, ⟨[r.bytes], [], []⟩)) ∧
    (findRec st.mng p = none → Push st p = none) := by
  refine ⟨?_, ?_, ?_⟩
  · intro h hh
    unfold Push
    simp [h, hh]
  · intro h hh
    unfold Push
    simp [h, hh]
  · intro h
    unfold Push
    simp [h]

/-- C4: when device execution is disabled (`cuda = false`, shifter off),
resolving a registered host-resident address `p` returns `p` unchanged,
leaves the whole state (in particular the registry) unchanged, and makes
zero backend calls: no device allocation and no copy. -/
theorem C4_resolve_host_mode (nvcc : Bool) (st : MMState) (p : Nat)
    (r : Record) (hxs : st.xs_shifted = false)
    (hr : findRec st.mng p = some r) (hhost : r.host = true)
    (hkey : r.h_adrs = p) :
    Adrs false nvcc st p = some (p, st, noEffects) := by
  obtain ⟨mng, xs, nd⟩ := st
  replace hxs : xs = false := hxs
  subst hxs
  have hknown : Known ⟨mng, false, nd⟩ p true = some (true, ⟨mng, false, nd⟩) := by
    unfold Known
    simp only [hr]
  unfold Adrs
  rw [hknown]
  simp [getOrInsert, hr, hhost, xsShift, hkey]

/-- C9: the Debug Address Shifter.  When disabled, the key transform of
`Insert` and the return transform `xsShift` are both the identity; when
enabled, the registry key is the address offset by the fixed power-of-two
constant `2^51` bytes (`xs_shift = 2^48` `size_t` units, scaled by
`sizeof(size_t) = 8` through the `size_t*` pointer arithmetic), and
`xsShift` removes exactly that offset before an address is handed back to
the caller. -/
theorem C9_shifter_transform (st : MMState) (p : Nat) :
    (st.xs_shifted = false → insertKey st p = p ∧ xsShift st p = p) ∧
    (st.xs_shifted = true →
      insertKey st p = p + 2 ^ 51 ∧ xsShift st (p + 2 ^ 51) = p) := by
  constructor
  · intro h
    simp [insertKey, xsShift, xsShiftUnits, h]
  · intro h
    constructor
    · simp only [insertKey, xsShiftUnits, h, if_pos]
      norm_num [szT]
    · simp only [xsShift, xsShiftUnits, h, if_pos]
      simp only [szT]
      omega

/-- C3 amended: `Push` and `Pull` never change the manager state at all
(in particular they never change a record's authoritative side); `Resolve`
on an already-materialized record (`d_adrs ≠ 0`) leaves the state
unchanged; the one authoritative-side change is performed inside `Resolve`
itself, which sets the record's side to Device (`host = false`) when it
materializes a record whose `d_adrs` is null. -/
theorem C3_amended_side_changes (cuda nvcc : Bool) (st : MMState) (p : Nat)
    (r : Record) :
    (∀ q e, Push st p = some (q, e) → q = st) ∧
    (∀ q e, Pull st p = some (q, e) → q = st) ∧
    (findRec st.mng p = some r → r.d_adrs ≠ 0 →
      Adrs cuda nvcc st p =
        some (if r.host && !cuda then xsShift st r.h_adrs else r.d_adrs,
          st, noEffects)) ∧
    (findRec st.mng p = some r → r.d_adrs = 0 →
      ((Adrs true true st p).bind
        (fun t => findRec t.2.1.mng p)).map Record.host = some false) := by
  refine ⟨?_, ?_, ?_, ?_⟩
  · intro q e hq
    unfold Push at hq
    split at hq
    · exact absurd hq (by simp)
    · split at hq <;>
        · simp only [Option.some.injEq, Prod.mk.injEq] at hq
          exact hq.1.symm
  · intro q e hq
    unfold Pull at hq
    split at hq
    · exact absurd hq (by simp)
    · split at hq <;>
        · simp only [Option.some.injEq, Prod.mk.injEq] at hq
          exact hq.1.symm
  · intro hr hd
    obtain ⟨mng, xs, nd⟩ := st
    have hknown : Known ⟨mng, xs, nd⟩ p true = some (true, ⟨mng, xs, nd⟩) := by
      unfold Known
      simp only [hr]
    unfold Adrs
    rw [hknown]
    by_cases hh : r.host && !cuda <;> simp [getOrInsert, hr, hh, hd]
  · intro hr hd
    obtain ⟨mng, xs, nd⟩ := st
    have hknown : Known ⟨mng, xs, nd⟩ p true = some (true, ⟨mng, xs, nd⟩) := by
      unfold Known
      simp only [hr]
    unfold Adrs
    rw [hknown]
    simp [getOrInsert, hr, hd, findRec_setRec_self]

/-- C2 amended: in device execution mode, for a registered record with a
null device pointer and a positive byte size, the first `Resolve`
materializes the record with exactly one device allocation and one
host-to-device copy of its byte size, and a second `Resolve` with no
intervening `Push`/`Pull` returns the same device address with zero
further backend calls: exactly one copy in total across both calls. -/
theorem C2_resolve_idempotent (st : MMState) (p : Nat) (r : Record)
    (hr : findRec st.mng p = some r) (hd : r.d_adrs = 0)
    (hb : 0 < r.bytes) :
    ∃ d st1,
      Adrs true true st p = some (d, st1, ⟨[r.bytes], [], [r.bytes]⟩) ∧
      Adrs true true st1 p = some (d, st1, noEffects) := by
  obtain ⟨mng, xs, nd⟩ := st
  obtain ⟨ha, hbyt, hda, hho, hra⟩ := r
  replace hd : hda = 0 := hd
  subst hd
  have hknown : Known ⟨mng, xs, nd⟩ p true = some (true, ⟨mng, xs, nd⟩) := by
    unfold Known
    simp only [hr]
  refine ⟨nd + 1, ⟨setRec mng p ⟨ha, hbyt, nd + 1, false, hra⟩, xs, nd + 1⟩, ?_, ?_⟩
  · unfold Adrs
    rw [hknown]
    simp [getOrInsert, hr, hb]
  · have hr1 : findRec (setRec mng p ⟨ha, hbyt, nd + 1, false, hra⟩) p =
        some ⟨ha, hbyt, nd + 1, false, hra⟩ :=
      findRec_setRec_self mng p _
    have hknown1 :
        Known ⟨setRec mng p ⟨ha, hbyt, nd + 1, false, hra⟩, xs, nd + 1⟩ p true =
        some (true, ⟨setRec mng p ⟨ha, hbyt, nd + 1, false, hra⟩, xs, nd + 1⟩) := by
      unfold Known
      simp only [hr1]
    unfold Adrs
    rw [hknown1]
    simp [getOrInsert, hr1]

/-! ## Concrete states for counterexamples and witnesses -/

/-- A one-block state: 8 bytes at 100, host resident, not materialized. -/
def stHost : MMState := ⟨[(100, ⟨100, 8, 0, true, false⟩)], false, 0⟩

/-- `stHost` after materialization by `Adrs`. -/
def stDev : MMState := ⟨[(100, ⟨100, 8, 1, false, false⟩)], false, 1⟩

/-- A zero-byte record at 50, host resident, not materialized. -/
def stZero0 : MMState := ⟨[(50, ⟨50, 0, 0, true, false⟩)], false, 0⟩

/-- `stZero0` after `Adrs`: still no device mirror (`d_adrs = 0`), but the
record is now marked device resident. -/
def stZero1 : MMState := ⟨[(50, ⟨50, 0, 0, false, false⟩)], false, 0⟩

/-- C3 counterexample: the claim says `Resolve` never changes the
authoritative side, but resolving the host-resident record at 100 in
device mode flips its `host` flag from `true` to `false` with no `Push`
or `Pull` involved. -/
theorem C3_counterexample :
    (findRec stHost.mng 100).map Record.host = some true ∧
    Adrs true true stHost 100 = some (1, stDev, ⟨[8], [], [8]⟩) ∧
    (findRec stDev.mng 100).map Record.host = some false := by decide

/-- C2 counterexample: for the registered zero-byte record at 50, the
device mirror is never allocated (`d_adrs` stays null), so each of the two
consecutive `Resolve` calls performs a host-to-device backend copy: two
copy calls in total, not the exactly one the claim states. -/
theorem C2_counterexample :
    Adrs true true stZero0 50 = some (0, stZero1, ⟨[0], [], []⟩) ∧
    Adrs true true stZero1 50 = some (0, stZero1, ⟨[0], [], []⟩) := by decide

/-- Witness for C4 at `stHost`. -/
theorem C4_witness : Adrs false false stHost 100 = some (100, stHost, noEffects) :=
  C4_resolve_host_mode false stHost 100 ⟨100, 8, 0, true, false⟩ rfl
    (by decide) rfl rfl

/-- Witness for C9 with the toggle off and on. -/
theorem C9_witness :
    (insertKey ⟨[], false, 0⟩ 5 = 5 ∧ xsShift ⟨[], false, 0⟩ 5 = 5) ∧
    (insertKey ⟨[], true, 0⟩ 5 = 5 + 2 ^ 51 ∧
      xsShift ⟨[], true, 0⟩ (5 + 2 ^ 51) = 5) :=
  ⟨(C9_shifter_transform ⟨[], false, 0⟩ 5).1 rfl,
   (C9_shifter_transform ⟨[], true, 0⟩ 5).2 rfl⟩

/-- Witness for C2 at `stHost`: the materializing resolve copies 8 bytes
once, the second resolve returns the same device address copy-free. -/
theorem C2_witness :
    ∃ d st1,
      Adrs true true stHost 100 = some (d, st1, ⟨[8], [], [8]⟩) ∧
      Adrs true true st1 100 = some (d, st1, noEffects) :=
  C2_resolve_idempotent stHost 100 ⟨100, 8, 0, true, false⟩ (by decide)
    rfl (by decide)

/-- A record host-resident at 100, 24 bytes. -/
def recH : Record := ⟨100, 24, 0, true, false⟩

/-- A record device-resident at 200, 24 bytes, device mirror 7. -/
def recD : Record := ⟨200, 24, 7, false, false⟩

/-- A two-entry registry state, shifter off. -/
def stW : MMState := ⟨[(100, recH), (200, recD)], false, 0⟩

/-- Witness for C3 at `stW` and `stHost`: push of the device-resident 200
leaves the state unchanged; resolving the already-materialized 200 returns
its device mirror 7 with the state unchanged and no backend call; the
materializing resolve of 100 marks that record device resident. -/
theorem C3_witness :
    stW = stW ∧
    Adrs true true stW 200 = some (7, stW, noEffects) ∧
    ((Adrs true true stHost 100).bind
      (fun t => findRec t.2.1.mng 100)).map Record.host = some false :=
  ⟨(C3_amended_side_changes true true stW 200 recD).1 stW ⟨[24], [], []⟩
      (by decide),
   (C3_amended_side_changes true true stW 200 recD).2.2.1 (by decide)
      (by decide),
   (C3_amended_side_changes true true stHost 100 ⟨100, 8, 0, true, false⟩).2.2.2
      (by decide) rfl⟩

/-- The scan loop of `mm::Range` returns the first entry in scan order
whose (inclusively compared, `size_t`-scaled) extent contains the probe. -/
theorem rangeScan_eq_find (m : Registry) (p : Nat) :
    rangeScan m p =
      (m.find? (fun e =>
        decide (e.2.h_adrs ≤ p ∧ p ≤ e.2.h_adrs + szT * e.2.bytes))).map
        (fun e => e.2.h_adrs) := by
  induction m with
  | nil => simp [rangeScan]
  | cons e rest ih =>
    obtain ⟨k, r⟩ := e
    by_cases h1 : p < r.h_adrs
    · have hnot : ¬ (r.h_adrs ≤ p ∧ p ≤ r.h_adrs + szT * r.bytes) := by omega
      simp [rangeScan, h1, hnot, ih]
    · by_cases h2 : p ≤ r.h_adrs + szT * r.bytes
      · have hyes : r.h_adrs ≤ p ∧ p ≤ r.h_adrs + szT * r.bytes := by omega
        simp [rangeScan, h1, h2, hyes]
      · have hnot : ¬ (r.h_adrs ≤ p ∧ p ≤ r.h_adrs + szT * r.bytes) := by omega
        simp [rangeScan, h1, h2, hnot, ih]

/-- C5 amended: for a probe address that is not itself registered (the
probe being a registry key is fatal: `assert(not known)`), `Range` returns
the base address of the first registered block in full-scan order whose
extent *as computed by the code* contains the probe, namely
`base ≤ probe ≤ base + 8 * bytes` — the block end is `(size_t*) base +
bytes`, scaling `bytes` by `sizeof(size_t)`, and the end is compared
inclusively — and returns null when no block satisfies that test. -/
theorem C5_amended_range (m : Registry) (p : Nat)
    (hp : findRec m p = none) :
    mmRange m p =
      some ((m.find? (fun e =>
        decide (e.2.h_adrs ≤ p ∧ p ≤ e.2.h_adrs + szT * e.2.bytes))).map
        (fun e => e.2.h_adrs)) := by
  unfold mmRange
  simp only [hp, rangeScan_eq_find]

/-- A one-block state for the range counterexample: 4 bytes at 100. -/
def stRange : MMState := ⟨[(100, ⟨100, 4, 0, true, false⟩)], false, 0⟩

/-- C5 counterexample: with a single block of 4 bytes at base 100, no
block's extent `[base, base + bytes)` contains the probe 104, so the claim
says `Range(104)` is null; the code returns base 100, because it computes
the block end as `(size_t*) 100 + 4 = 132` and compares inclusively. -/
theorem C5_counterexample :
    mmRange stRange.mng 104 = some (some 100) ∧
    (∀ e ∈ stRange.mng, ¬ (e.2.h_adrs ≤ 104 ∧ 104 < e.2.h_adrs + e.2.bytes)) := by
  decide

/-- Witness for C5: probing 300, outside even the scaled extent, yields
null. -/
theorem C5_witness :
    mmRange stRange.mng 300 =
      some ((stRange.mng.find? (fun e =>
        decide (e.2.h_adrs ≤ 300 ∧ 300 ≤ e.2.h_adrs + szT * e.2.bytes))).map
        (fun e => e.2.h_adrs)) :=
  C5_amended_range stRange.mng 300 (by decide)

/-- A one-block state for the sub-range counterexample: 16 bytes at 100. -/
def stB : MMState := ⟨[(100, ⟨100, 16, 0, true, false⟩)], false, 0⟩

/-- `stB` after `Known(101, insertIfInRange = true)`. -/
def stB1 : MMState :=
  ⟨[(100, ⟨100, 16, 0, true, false⟩), (101, ⟨101, 16, 0, true, true⟩)],
   false, 0⟩

/-- C1 counterexample: base 100 registered with n = 16 bytes, offset
k = 1.  `Known(101, insertIfInRange=true)` returns true but auto-registers
a record of 16 bytes, not the `n - k = 15` bytes the claim states: the
offset subtracted is the `size_t*` pointer difference
`(101 - 100) / 8 = 0`, not the byte offset 1. -/
theorem C1_counterexample :
    Known stB 101 true = some (true, stB1) ∧
    (findRec stB1.mng 101).map Record.bytes = some 16 ∧
    (findRec stB1.mng 101).map Record.bytes ≠ some 15 := by decide

/-- C1 amended: for a base `b` registered with `n` bytes as the block
first matched by the scan (here: the only block), and any offset
`0 < k < n`: `Range(b+k)` returns `b`, and `Known(b+k,
insertIfInRange=true)` returns true and auto-registers a new sub-range
record covering `n - k / 8` bytes — the offset is computed as a `size_t*`
pointer difference, so it is `k / 8`, not `k`.  (For `k = 0` the address
is the base itself: `Known` returns true without registering anything, and
`Range` on a registered address is fatal.) -/
theorem C1_amended_subrange (b n k : Nat) (r : Record) (hadr : r.h_adrs = b)
    (hbytes : r.bytes = n) (hk : 0 < k) (hkn : k < n) :
    mmRange [(b, r)] (b + k) = some (some b) ∧
    ∃ st1, Known ⟨[(b, r)], false, 0⟩ (b + k) true = some (true, st1) ∧
      (findRec st1.mng (b + k)).map Record.bytes = some (n - k / szT) := by
  have hbk : b ≠ b + k := by omega
  have hne : findRec [(b, r)] (b + k) = none := by
    simp [findRec, hbk]
  have hfb : findRec [(b, r)] b = some r := by
    simp [findRec]
  have hscan : rangeScan [(b, r)] (b + k) = some b := by
    unfold rangeScan
    rw [hadr, hbytes]
    have h1 : ¬ b + k < b := by omega
    have h2 : b + k ≤ b + szT * n := by
      simp only [szT]
      omega
    simp [h1, h2, rangeScan]
  constructor
  · unfold mmRange
    simp only [hne, hscan]
  · have hn0 : ¬ n = 0 := by omega
    have hble : ¬ b + k ≤ b := by omega
    have hoff : b + k - b = k := by omega
    refine ⟨⟨[(b, r), (b + k, ⟨b + k, (n - k / szT) * 1, 0, true, true⟩)],
      false, 0⟩, ?_, ?_⟩
    · unfold Known Insert
      simp only [hne, hscan, hfb, hbytes, hn0, hble, hoff, insertKey,
        xsShiftUnits, if_false, Bool.false_eq_true, mul_zero, add_zero]
      simp [hne, setRec, hbk]
    · simp [findRec, hbk]

/-- Witness for C1 at base 100, `n = 16`, `k = 1`: the auto-registered
sub-range covers `16 - 1 / 8 = 16` bytes. -/
theorem C1_witness :
    mmRange [(100, (⟨100, 16, 0, true, false⟩ : Record))] 101 =
      some (some 100) ∧
    ∃ st1, Known ⟨[(100, ⟨100, 16, 0, true, false⟩)], false, 0⟩ 101 true =
      some (true, st1) ∧
      (findRec st1.mng 101).map Record.bytes = some (16 - 1 / szT) :=
  C1_amended_subrange 100 16 1 ⟨100, 16, 0, true, false⟩ rfl rfl
    (by decide) (by decide)

/-- Witness for C6 at the empty state. -/
theorem C6_witness :
    ∃ st1, Insert ⟨[], false, 0⟩ 100 3 4 false = some (100, st1) ∧
      (findRec st1.mng 100).map Record.bytes = some 12 ∧
      Known st1 100 false = some (true, st1) :=
  C6_insert_fresh ⟨[], false, 0⟩ 100 3 4 false rfl rfl

/-- Witness for C7: erasing the unregistered 300 aborts, and re-inserting
the registered non-ranged 100 aborts. -/
theorem C7_witness : Erase stW 300 = none ∧ Insert stW 100 3 4 false = none :=
  ⟨(C7_fatal_erase_and_duplicate_insert stW 300 3 4 false recH).1 (by decide),
   (C7_fatal_erase_and_duplicate_insert stW 100 3 4 false recH).2 rfl
     (by decide) rfl⟩

/-- Witness for C8: push of a host-resident record copies nothing, push of
a device-resident record copies exactly its 24 bytes once, push of an
unregistered address aborts. -/
theorem C8_witness :
    Push stW 100 = some (stW, noEffects) ∧
    Push stW 200 = some (stW, ⟨[24], [], []⟩) ∧
    Push stW 300 = none :=
  ⟨(C8_push_copy_discipline stW 100 recH).1 (by decide) rfl,
   (C8_push_copy_discipline stW 200 recD).2.1 (by decide) rfl,
   (C8_push_copy_discipline stW 300 recH).2.2 (by decide)⟩

end MfemMM
